import Mathlib

/-!
Verification development for the `aicred` / `genai_keyfinder` credential
scanner.  The repository ships only the FFI header
`src/ffi/include/genai_keyfinder.h`; the engine behind it is reconstructed
here from the specification (each such definition carries a doc comment
starting with `Modelled from the spec:`).
-/

namespace Aicred

/-! ## Data model -/

/-- Modelled from the spec: the `confidence` enum of a Finding
(`Certain`, `Likely`, `Possible`); the detector implementation is not in src. -/
inductive Confidence where
  | certain
  | likely
  | possible
deriving DecidableEq, Repr

/-- Modelled from the spec: the structured output of a Detector before the
engine attaches the scanner name and file path; the detector code is not in
src. -/
structure RawFinding where
  provider : String
  key_name : String
  value : String
  confidence : Confidence
deriving DecidableEq, Repr

/-- Modelled from the spec: a Finding record
(`provider`, `scanner`, `file_path`, `key_name`, `value`, `confidence`);
the result model is not in src. -/
structure Finding where
  provider : String
  scanner : String
  file_path : String
  key_name : String
  value : String
  confidence : Confidence
deriving DecidableEq, Repr

/-- Modelled from the spec: a `ScanResult` with ordered findings, ordered
per-file errors `(path, message)` and `scanned_file_count`; the result model
is not in src. -/
structure ScanResult where
  findings : List Finding
  errors : List (String × String)
  scanned_file_count : Nat
deriving DecidableEq, Repr

/-- Modelled from the spec: decoded `ScanOptions`
(`include_full_values`, `max_file_size`, `only_providers`,
`exclude_providers`); the options model is not in src. -/
structure ScanOptions where
  include_full_values : Bool
  max_file_size : Int
  only_providers : List String
  exclude_providers : List String
deriving DecidableEq, Repr

/-- Modelled from the spec: the state of one file on disk as the engine
observes it: readable content, or a permission failure; the filesystem
access layer is not in src. -/
inductive FileState where
  | readable (content : String)
  | unreadable
deriving DecidableEq, Repr

/-- Modelled from the spec: a filesystem snapshot — the process home
directory, the set of existing directories, and a finite map from absolute
paths to file states; the I/O layer is not in src. -/
structure FS where
  defaultHome : String
  dirs : List String
  files : List (String × FileState)
deriving DecidableEq, Repr

/-- Look up a path in the snapshot (first entry wins). -/
def FS.lookup (fs : FS) (p : String) : Option FileState :=
  (fs.files.find? (fun e => e.1 = p)).map (·.2)

/-- Remove a path from the snapshot. -/
def FS.erase (fs : FS) (p : String) : FS :=
  { fs with files := fs.files.filter (fun e => e.1 ≠ p) }

/-! ## Registry -/

/-- Modelled from the spec: a Detector capability: given file path and
content it returns the (possibly empty) findings; detector code is not in
src. -/
def Detector : Type := String → String → List RawFinding

/-- Modelled from the spec: a provider registration entry
(`name`, `detector`); the registry is not in src. -/
structure ProviderEntry where
  name : String
  detector : Detector

/-- Modelled from the spec: a scanner registration entry
(`name`, `relative_search_paths`, `detector_provider`); the registry is not
in src. -/
structure ScannerEntry where
  name : String
  relative_search_paths : List String
  detector_provider : String
deriving DecidableEq, Repr

/-- Modelled from the spec: the process-wide catalog of providers and
scanners, in insertion order; the registry is not in src. -/
structure Registry where
  providers : List ProviderEntry
  scanners : List ScannerEntry

/-- Modelled from the spec: `resolve_detector(name) -> Detector or NotFound`. -/
def resolve_detector (reg : Registry) (n : String) : Option Detector :=
  (reg.providers.find? (fun e => e.name = n)).map (·.detector)

/-- Modelled from the spec: `list_providers() -> sequence of string`,
registry insertion order. -/
def list_providers (reg : Registry) : List String :=
  reg.providers.map (·.name)

/-- Modelled from the spec: `list_scanners() -> sequence of string`,
registry insertion order. -/
def list_scanners (reg : Registry) : List String :=
  reg.scanners.map (·.name)

/-! ## Path & redaction utilities -/

/-- The mask character used by redaction. -/
def maskChar : Char := '*'

/-- Modelled from the spec: the masking rule on the character list of a
value — keep the first 3 and last 2 characters, mask the rest; values of
length at most 5 are masked entirely so the shape stays length-preserving;
the redaction code is not in src. -/
def redactList (l : List Char) : List Char :=
  if l.length ≤ 5 then List.replicate l.length maskChar
  else l.take 3 ++ List.replicate (l.length - 5) maskChar ++ l.drop (l.length - 2)

/-- Modelled from the spec: `redact(value) -> string`, a fixed-shape masked
string preserving length and prefix/suffix hints; the redaction code is not
in src. -/
def redact (v : String) : String :=
  ⟨redactList v.data⟩

/-- Join a home directory and a relative search path. -/
def joinPath (home rel : String) : String := home ++ "/" ++ rel

/-- Modelled from the spec: `candidate_paths(home_path)` — the scanner's
relative search paths resolved against the home directory, in order. -/
def candidate_paths (sc : ScannerEntry) (home : String) : List String :=
  sc.relative_search_paths.map (joinPath home)

/-- Outcome of a bounded read of one candidate path. -/
inductive ReadOutcome where
  | notFound
  | skippedTooLarge
  | readErr (msg : String)
  | ok (content : String)
deriving DecidableEq, Repr

/-- Modelled from the spec: `read_bounded(path, max_size)` — absent files
are skipped, unreadable files yield a non-fatal error, files larger than
the bound yield `Skipped\x7bTooLarge\x7d` rather than a hard error. -/
def read_bounded (fs : FS) (maxSize : Int) (p : String) : ReadOutcome :=
  match fs.lookup p with
  | none => .notFound
  | some .unreadable => .readErr "permission denied"
  | some (.readable c) =>
      if (c.length : Int) > maxSize then .skippedTooLarge else .ok c

/-! ## Discovery engine -/

/-- Modelled from the spec: whether a scanner's bound provider passes the
`only_providers` allow-list (empty = all) and the `exclude_providers`
deny-list; deny overrides allow. -/
def providerAllowed (opts : ScanOptions) (p : String) : Bool :=
  (opts.only_providers.isEmpty || opts.only_providers.contains p)
    && !(opts.exclude_providers.contains p)

/-- Modelled from the spec: the effective scanner set — all registered
scanners filtered by the provider allow/deny lists applied to each
scanner's bound provider name, in registry enumeration order. -/
def effectiveScanners (reg : Registry) (opts : ScanOptions) : List ScannerEntry :=
  reg.scanners.filter (fun sc => providerAllowed opts sc.detector_provider)

/-- Modelled from the spec: the engine turns a detector's raw finding into
a `Finding` by attaching the scanner name and file path, redacting the
value unless `include_full_values` is set. -/
def mkFinding (opts : ScanOptions) (scName path : String) (r : RawFinding) : Finding :=
  { provider := r.provider
    scanner := scName
    file_path := path
    key_name := r.key_name
    value := if opts.include_full_values then r.value else redact r.value
    confidence := r.confidence }

/-- Modelled from the spec: processing of one candidate path — absent files
and too-large files contribute nothing, read failures append a non-fatal
diagnostic, successful reads hand content to the detector and count the
file. -/
def scanOneFile (fs : FS) (opts : ScanOptions) (scName : String) (d : Detector)
    (path : String) (acc : ScanResult) : ScanResult :=
  match read_bounded fs opts.max_file_size path with
  | .notFound => acc
  | .skippedTooLarge => acc
  | .readErr m => { acc with errors := acc.errors ++ [(path, m)] }
  | .ok c =>
      { acc with
        findings := acc.findings ++ (d path c).map (mkFinding opts scName path)
        scanned_file_count := acc.scanned_file_count + 1 }

/-- Modelled from the spec: one scanner's pass — its candidate paths in
enumeration order, each absorbed into the aggregate result. -/
def scanScanner (fs : FS) (opts : ScanOptions) (home : String)
    (sc : ScannerEntry) (d : Detector) (acc : ScanResult) : ScanResult :=
  (candidate_paths sc home).foldl (fun a p => scanOneFile fs opts sc.name d p a) acc

/-- Modelled from the spec: the discovery engine — for each effective
scanner in registry enumeration order, resolve its bound detector and run
its pass, accumulating findings, diagnostics and the scanned-file count. -/
def runScan (reg : Registry) (fs : FS) (opts : ScanOptions) (home : String) : ScanResult :=
  (effectiveScanners reg opts).foldl
    (fun a sc =>
      match resolve_detector reg sc.detector_provider with
      | none => a
      | some d => scanScanner fs opts home sc d a)
    ⟨[], [], 0⟩

/-! ## Options decoding -/

/-- Modelled from the spec: the fields of the caller's options JSON object,
each optional (empty-by-default); the JSON decoder is not in src. -/
structure OptionsFields where
  include_full_values : Option Bool
  max_file_size : Option Int
  only_providers : Option (List String)
  exclude_providers : Option (List String)
deriving DecidableEq, Repr

/-- Modelled from the spec: the `options_json` argument as the boundary
sees it — either text that is not valid JSON, or a decoded object; the
JSON parser is not in src. -/
inductive OptionsJson where
  | malformed (raw : String)
  | obj (fields : OptionsFields)
deriving DecidableEq, Repr

/-- The default `max_file_size` (the header's example value, 1 MiB). -/
def defaultMaxFileSize : Int := 1048576

/-- Modelled from the spec: decode and validate `ScanOptions`, failing fast
with an invalid-options message on malformed JSON or `max_file_size ≤ 0`;
a null `options_json` pointer yields the defaults. -/
def decodeOptions (oj : Option OptionsJson) : Except String ScanOptions :=
  match oj with
  | none =>
      .ok ⟨false, defaultMaxFileSize, [], []⟩
  | some (.malformed _) =>
      .error "invalid options: malformed JSON"
  | some (.obj f) =>
      let m := f.max_file_size.getD defaultMaxFileSize
      if m ≤ 0 then .error "invalid options: max_file_size out of range"
      else
        .ok ⟨f.include_full_values.getD false, m,
             f.only_providers.getD [], f.exclude_providers.getD []⟩

/-! ## JSON encoding -/

/-- Escape one character for a JSON string literal. -/
def escapeChar (c : Char) : String :=
  if c = '"' then "\\\"" else if c = '\\' then "\\\\" else String.singleton c

/-- Encode a string as a JSON string literal. -/
def encodeString (s : String) : String :=
  "\"" ++ String.join (s.data.map escapeChar) ++ "\""

/-- Encode a confidence level. -/
def encodeConfidence : Confidence → String
  | .certain => "\"Certain\""
  | .likely => "\"Likely\""
  | .possible => "\"Possible\""

/-- Encode a list of already-encoded JSON values. -/
def encodeArray (xs : List String) : String :=
  "[" ++ String.intercalate "," xs ++ "]"

/-- Encode one finding as a JSON object. -/
def encodeFinding (f : Finding) : String :=
  "\x7b\"provider\":" ++ encodeString f.provider
    ++ ",\"scanner\":" ++ encodeString f.scanner
    ++ ",\"file_path\":" ++ encodeString f.file_path
    ++ ",\"key_name\":" ++ encodeString f.key_name
    ++ ",\"value\":" ++ encodeString f.value
    ++ ",\"confidence\":" ++ encodeConfidence f.confidence ++ "\x7d"

/-- Encode one per-file error as a JSON object. -/
def encodeError (e : String × String) : String :=
  "\x7b\"path\":" ++ encodeString e.1 ++ ",\"message\":" ++ encodeString e.2 ++ "\x7d"

/-- Modelled from the spec: serialize a `ScanResult` to its JSON string;
the serializer is not in src. -/
def encodeResult (r : ScanResult) : String :=
  "\x7b\"findings\":" ++ encodeArray (r.findings.map encodeFinding)
    ++ ",\"errors\":" ++ encodeArray (r.errors.map encodeError)
    ++ ",\"scanned_file_count\":" ++ toString r.scanned_file_count ++ "\x7d"

/-! ## FFI boundary -/

/-- Modelled from the spec: the home path the engine uses — the caller's
string when present, the process home directory when the pointer is null. -/
def resolveHome (fs : FS) (home : Option String) : String :=
  home.getD fs.defaultHome

/-- Error message for a missing home directory. -/
def homeMissingMsg (h : String) : String :=
  "home path does not exist: " ++ h

/-- Modelled from the spec: the scan pipeline behind the boundary — decode
and validate options (fail fast), check the home-directory precondition,
run the engine and serialize; any failure is an error message, never a
partial result. -/
def scanCore (reg : Registry) (fs : FS) (home : Option String)
    (oj : Option OptionsJson) : Except String String := do
  let opts ← decodeOptions oj
  if fs.dirs.contains (resolveHome fs home) then
    .ok (encodeResult (runScan reg fs opts (resolveHome fs home)))
  else
    .error (homeMissingMsg (resolveHome fs home))

/-- Modelled from the spec: the thread-local diagnostics slot behind
`aicred_last_error`. -/
structure ThreadState where
  last_error : Option String
deriving DecidableEq, Repr

/-- Modelled from the spec: `aicred_scan` at the exported boundary — on
success it returns the owned JSON string and clears the thread-local error
slot; on failure it returns the null sentinel and stores the message. -/
def aicred_scan (reg : Registry) (fs : FS) (home : Option String)
    (oj : Option OptionsJson) (_st : ThreadState) : Option String × ThreadState :=
  match scanCore reg fs home oj with
  | .ok s => (some s, ⟨none⟩)
  | .error m => (none, ⟨some m⟩)

/-- Modelled from the spec: `aicred_free` releases a returned string; a
no-op on null. In the model ownership is implicit, so this is the identity
on nothing. -/
def aicred_free (_ptr : Option String) : Unit := ()

/-- Modelled from the spec: `aicred_version` returns a static version
string and never fails. -/
def aicred_version : String := "0.1.0"

/-- Modelled from the spec: `aicred_last_error` reads the thread-local
slot — the last diagnostic message, or null when the previous boundary
call succeeded. -/
def aicred_last_error (st : ThreadState) : Option String :=
  st.last_error

/-- Modelled from the spec: `aicred_list_providers` — a JSON array of the
registry's provider names; clears the error slot on success. -/
def aicred_list_providers (reg : Registry) (_st : ThreadState) :
    Option String × ThreadState :=
  (some (encodeArray ((list_providers reg).map encodeString)), ⟨none⟩)

/-- Modelled from the spec: `aicred_list_scanners` — a JSON array of the
registry's scanner names; clears the error slot on success. -/
def aicred_list_scanners (reg : Registry) (_st : ThreadState) :
    Option String × ThreadState :=
  (some (encodeArray ((list_scanners reg).map encodeString)), ⟨none⟩)

/-! ## Characterization of the engine

Specification-level contribution functions for one candidate path and one
scanner, and the proof that the accumulating engine computes exactly their
ordered concatenation. -/

/-- The findings one candidate path contributes. -/
def fileFindings (fs : FS) (opts : ScanOptions) (scName : String) (d : Detector)
    (p : String) : List Finding :=
  match read_bounded fs opts.max_file_size p with
  | .ok c => (d p c).map (mkFinding opts scName p)
  | _ => []

/-- The per-file diagnostics one candidate path contributes. -/
def fileErrors (fs : FS) (opts : ScanOptions) (p : String) : List (String × String) :=
  match read_bounded fs opts.max_file_size p with
  | .readErr m => [(p, m)]
  | _ => []

/-- The contribution of one candidate path to the scanned-file count. -/
def fileCount (fs : FS) (opts : ScanOptions) (p : String) : Nat :=
  match read_bounded fs opts.max_file_size p with
  | .ok _ => 1
  | _ => 0

/-- The findings one scanner contributes. -/
def scannerFindings (reg : Registry) (fs : FS) (opts : ScanOptions) (home : String)
    (sc : ScannerEntry) : List Finding :=
  match resolve_detector reg sc.detector_provider with
  | none => []
  | some d => (candidate_paths sc home).flatMap (fileFindings fs opts sc.name d)

/-- The diagnostics one scanner contributes. -/
def scannerErrors (reg : Registry) (fs : FS) (opts : ScanOptions) (home : String)
    (sc : ScannerEntry) : List (String × String) :=
  match resolve_detector reg sc.detector_provider with
  | none => []
  | some _ => (candidate_paths sc home).flatMap (fileErrors fs opts)

/-- The contribution of one scanner to the scanned-file count. -/
def scannerCount (reg : Registry) (fs : FS) (opts : ScanOptions) (home : String)
    (sc : ScannerEntry) : Nat :=
  match resolve_detector reg sc.detector_provider with
  | none => 0
  | some _ => ((candidate_paths sc home).map (fileCount fs opts)).sum

theorem scanOneFile_eq (fs : FS) (opts : ScanOptions) (scName : String)
    (d : Detector) (p : String) (acc : ScanResult) :
    scanOneFile fs opts scName d p acc =
      ⟨acc.findings ++ fileFindings fs opts scName d p,
       acc.errors ++ fileErrors fs opts p,
       acc.scanned_file_count + fileCount fs opts p⟩ := by
  unfold scanOneFile fileFindings fileErrors fileCount
  cases read_bounded fs opts.max_file_size p <;> simp

theorem foldl_scanOneFile (fs : FS) (opts : ScanOptions) (scName : String)
    (d : Detector) (ps : List String) (acc : ScanResult) :
    ps.foldl (fun a p => scanOneFile fs opts scName d p a) acc =
      ⟨acc.findings ++ ps.flatMap (fileFindings fs opts scName d),
       acc.errors ++ ps.flatMap (fileErrors fs opts),
       acc.scanned_file_count + (ps.map (fileCount fs opts)).sum⟩ := by
  induction ps generalizing acc with
  | nil => simp
  | cons p ps ih =>
      rw [List.foldl_cons, ih, scanOneFile_eq]
      simp [List.append_assoc, Nat.add_assoc]

theorem scanScanner_eq (fs : FS) (opts : ScanOptions) (home : String)
    (sc : ScannerEntry) (d : Detector) (acc : ScanResult) :
    scanScanner fs opts home sc d acc =
      ⟨acc.findings ++ (candidate_paths sc home).flatMap (fileFindings fs opts sc.name d),
       acc.errors ++ (candidate_paths sc home).flatMap (fileErrors fs opts),
       acc.scanned_file_count + ((candidate_paths sc home).map (fileCount fs opts)).sum⟩ := by
  unfold scanScanner
  exact foldl_scanOneFile fs opts sc.name d (candidate_paths sc home) acc

/-- One step of the scanner fold, written with the contribution functions. -/
theorem scanStep_eq (reg : Registry) (fs : FS) (opts : ScanOptions) (home : String)
    (sc : ScannerEntry) (acc : ScanResult) :
    (match resolve_detector reg sc.detector_provider with
      | none => acc
      | some d => scanScanner fs opts home sc d acc) =
      ⟨acc.findings ++ scannerFindings reg fs opts home sc,
       acc.errors ++ scannerErrors reg fs opts home sc,
       acc.scanned_file_count + scannerCount reg fs opts home sc⟩ := by
  unfold scannerFindings scannerErrors scannerCount
  cases resolve_detector reg sc.detector_provider with
  | none => simp
  | some d => simp [scanScanner_eq]

theorem foldl_scanStep (reg : Registry) (fs : FS) (opts : ScanOptions) (home : String)
    (scs : List ScannerEntry) (acc : ScanResult) :
    scs.foldl
        (fun a sc =>
          match resolve_detector reg sc.detector_provider with
          | none => a
          | some d => scanScanner fs opts home sc d a) acc =
      ⟨acc.findings ++ scs.flatMap (scannerFindings reg fs opts home),
       acc.errors ++ scs.flatMap (scannerErrors reg fs opts home),
       acc.scanned_file_count + (scs.map (scannerCount reg fs opts home)).sum⟩ := by
  induction scs generalizing acc with
  | nil => simp
  | cons sc scs ih =>
      rw [List.foldl_cons, ih, scanStep_eq]
      simp [List.append_assoc, Nat.add_assoc]

/-- The engine computes exactly the ordered concatenation of per-scanner
contributions, in effective-scanner enumeration order. -/
theorem runScan_eq (reg : Registry) (fs : FS) (opts : ScanOptions) (home : String) :
    runScan reg fs opts home =
      ⟨(effectiveScanners reg opts).flatMap (scannerFindings reg fs opts home),
       (effectiveScanners reg opts).flatMap (scannerErrors reg fs opts home),
       ((effectiveScanners reg opts).map (scannerCount reg fs opts home)).sum⟩ := by
  unfold runScan
  simp [foldl_scanStep]

/-! ## Redaction lemmas -/

theorem redactList_of_le (l : List Char) (h : l.length ≤ 5) :
    redactList l = List.replicate l.length maskChar := by
  simp only [redactList, if_pos h]

theorem redactList_of_gt (l : List Char) (h : 5 < l.length) :
    redactList l =
      l.take 3 ++ List.replicate (l.length - 5) maskChar ++ l.drop (l.length - 2) := by
  simp only [redactList, if_neg (by omega : ¬ l.length ≤ 5)]

theorem redactList_length (l : List Char) : (redactList l).length = l.length := by
  by_cases h : l.length ≤ 5
  · simp [redactList_of_le l h]
  · rw [redactList_of_gt l (by omega)]
    simp
    omega

theorem redactList_idem (l : List Char) : redactList (redactList l) = redactList l := by
  by_cases h : l.length ≤ 5
  · rw [redactList_of_le l h,
      redactList_of_le _ (by simpa using h)]
    simp
  · have h6 : 5 < l.length := by omega
    have hlen : (redactList l).length = l.length := redactList_length l
    have htk : (l.take 3).length = 3 := by simp; omega
    have htake : (redactList l).take 3 = l.take 3 := by
      rw [redactList_of_gt l h6, List.append_assoc,
        List.take_append_of_le_length (by omega)]
      simp [List.take_take]
    have hdrop : (redactList l).drop (l.length - 2) = l.drop (l.length - 2) := by
      rw [redactList_of_gt l h6]
      have hlen2 : (l.take 3 ++ List.replicate (l.length - 5) maskChar).length =
          l.length - 2 := by
        simp; omega
      rw [← hlen2, List.drop_left]
    rw [redactList_of_gt _ (by omega), hlen, htake, hdrop, ← redactList_of_gt l h6]

/-! ## Inversion lemmas -/

theorem resolve_detector_some (reg : Registry) (n : String) (d : Detector)
    (h : resolve_detector reg n = some d) :
    ∃ e ∈ reg.providers, e.name = n ∧ e.detector = d := by
  unfold resolve_detector at h
  rcases hf : reg.providers.find? (fun e => e.name = n) with _ | e
  · rw [hf] at h; simp at h
  · rw [hf] at h
    simp only [Option.map_some'] at h
    refine ⟨e, List.mem_of_find?_eq_some hf, ?_, by simpa using h⟩
    simpa using List.find?_some hf

/-- Every finding produced by the engine comes from an effective scanner, a
resolvable detector, a candidate path whose bounded read succeeded, and a
raw finding of that detector. -/
theorem findings_inversion (reg : Registry) (fs : FS) (opts : ScanOptions)
    (home : String) (f : Finding)
    (hf : f ∈ (runScan reg fs opts home).findings) :
    ∃ sc ∈ effectiveScanners reg opts, ∃ d,
      resolve_detector reg sc.detector_provider = some d ∧
      ∃ p ∈ candidate_paths sc home, ∃ c,
        read_bounded fs opts.max_file_size p = .ok c ∧
        ∃ r ∈ d p c, f = mkFinding opts sc.name p r := by
  rw [runScan_eq] at hf
  simp only [List.mem_flatMap] at hf
  obtain ⟨sc, hsc, hmem⟩ := hf
  refine ⟨sc, hsc, ?_⟩
  unfold scannerFindings at hmem
  rcases hd : resolve_detector reg sc.detector_provider with _ | d
  · rw [hd] at hmem; simp at hmem
  · rw [hd] at hmem
    simp only [List.mem_flatMap] at hmem
    obtain ⟨p, hp, hmem⟩ := hmem
    refine ⟨d, rfl, p, hp, ?_⟩
    unfold fileFindings at hmem
    rcases hr : read_bounded fs opts.max_file_size p with _ | _ | m | c
    · rw [hr] at hmem; simp at hmem
    · rw [hr] at hmem; simp at hmem
    · rw [hr] at hmem; simp at hmem
    · rw [hr] at hmem
      simp only [List.mem_map] at hmem
      obtain ⟨r, hrm, hfr⟩ := hmem
      exact ⟨c, rfl, r, hrm, hfr.symm⟩

/-- Every per-file error recorded by the engine comes from an effective
scanner with a resolvable detector and a candidate path whose bounded read
failed. -/
theorem errors_inversion (reg : Registry) (fs : FS) (opts : ScanOptions)
    (home : String) (e : String × String)
    (he : e ∈ (runScan reg fs opts home).errors) :
    ∃ sc ∈ effectiveScanners reg opts,
      ∃ p ∈ candidate_paths sc home, ∃ m,
        read_bounded fs opts.max_file_size p = .readErr m ∧ e = (p, m) := by
  rw [runScan_eq] at he
  simp only [List.mem_flatMap] at he
  obtain ⟨sc, hsc, hmem⟩ := he
  refine ⟨sc, hsc, ?_⟩
  unfold scannerErrors at hmem
  rcases hd : resolve_detector reg sc.detector_provider with _ | d
  · rw [hd] at hmem; simp at hmem
  · rw [hd] at hmem
    simp only [List.mem_flatMap] at hmem
    obtain ⟨p, hp, hmem⟩ := hmem
    refine ⟨p, hp, ?_⟩
    unfold fileErrors at hmem
    rcases hr : read_bounded fs opts.max_file_size p with _ | _ | m | c
    · rw [hr] at hmem; simp at hmem
    · rw [hr] at hmem; simp at hmem
    · rw [hr] at hmem
      simp only [List.mem_singleton] at hmem
      exact ⟨m, rfl, hmem⟩
    · rw [hr] at hmem; simp at hmem

/-! ## Error-message lemmas -/

theorem decodeOptions_error_cases (oj : Option OptionsJson) (m : String)
    (h : decodeOptions oj = .error m) :
    m = "invalid options: malformed JSON" ∨
    m = "invalid options: max_file_size out of range" := by
  unfold decodeOptions at h
  rcases oj with _ | oj
  · simp at h
  · rcases oj with raw | f
    · simp at h; exact Or.inl h.symm
    · simp only at h
      split at h
      · simp at h; exact Or.inr h.symm
      · simp at h

theorem homeMissingMsg_ne_empty (h : String) : homeMissingMsg h ≠ "" := by
  intro hEq
  have := congrArg String.length hEq
  simp [homeMissingMsg, String.length_append] at this
  exact absurd this.1 (by decide)

/-- Every error message that `scanCore` can produce is nonempty. -/
theorem scanCore_error_nonempty (reg : Registry) (fs : FS) (home : Option String)
    (oj : Option OptionsJson) (m : String)
    (h : scanCore reg fs home oj = .error m) : m ≠ "" := by
  unfold scanCore at h
  rcases hdec : decodeOptions oj with me | opts
  · rw [hdec] at h
    simp only [Except.bind, Bind.bind] at h
    rcases decodeOptions_error_cases oj me hdec with h1 | h1 <;>
      · cases h; subst h1; decide
  · rw [hdec] at h
    simp only [Except.bind, Bind.bind] at h
    split at h
    · simp at h
    · simp only [Except.error.injEq] at h
      exact h ▸ homeMissingMsg_ne_empty _

/-! ## Erasing a skipped file -/

theorem find?_filter_ne (l : List (String × FileState)) (p q : String) :
    (((l.filter (fun e => e.1 ≠ p)).find? (fun e => e.1 = q)).map (·.2)) =
      (if q = p then none else ((l.find? (fun e => e.1 = q)).map (·.2))) := by
  induction l with
  | nil => simp
  | cons e l ih =>
      by_cases hep : e.1 = p
      · rw [List.filter_cons_of_neg (by simp [hep])]
        rw [ih]
        by_cases hqp : q = p
        · simp [hqp]
        · rw [if_neg hqp, if_neg hqp,
            List.find?_cons_of_neg _ (by simp; intro hq; exact hqp (hq ▸ hep ▸ rfl))]
      · rw [List.filter_cons_of_pos (by simp [hep])]
        by_cases heq : e.1 = q
        · have hqp : ¬ q = p := fun hq => hep (heq.symm ▸ hq ▸ rfl)
          rw [if_neg hqp, List.find?_cons_of_pos _ (by simp [heq]),
            List.find?_cons_of_pos _ (by simp [heq])]
        · rw [List.find?_cons_of_neg _ (by simp [heq]), ih,
            List.find?_cons_of_neg _ (by simp [heq])]

theorem lookup_erase (fs : FS) (p q : String) :
    (fs.erase p).lookup q = if q = p then none else fs.lookup q := by
  unfold FS.erase FS.lookup
  exact find?_filter_ne fs.files p q

theorem read_bounded_erase (fs : FS) (maxSize : Int) (p q : String) :
    read_bounded (fs.erase p) maxSize q =
      if q = p then .notFound else read_bounded fs maxSize q := by
  unfold read_bounded
  rw [lookup_erase]
  by_cases hqp : q = p <;> simp [hqp]

/-! ## Thread-local error state -/

/-- Modelled from the spec: the process-wide error-state map, one
thread-local slot per thread id; the FFI state is not in src. -/
def GlobalErr : Type := Nat → Option String

/-- Write one thread's slot, leaving every other slot unchanged. -/
def setThread (t : Nat) (v : Option String) (g : GlobalErr) : GlobalErr :=
  fun u => if u = t then v else g u

/-- Modelled from the spec: `aicred_scan` invoked from thread `t` against
the process-wide error state — failure stores the message in thread `t`'s
slot, success clears it. -/
def aicred_scan_on (t : Nat) (reg : Registry) (fs : FS) (home : Option String)
    (oj : Option OptionsJson) (g : GlobalErr) : Option String × GlobalErr :=
  match scanCore reg fs home oj with
  | .ok s => (some s, setThread t none g)
  | .error m => (none, setThread t (some m) g)

/-- Modelled from the spec: `aicred_list_providers` invoked from thread
`t`; it succeeds and clears that thread's slot. -/
def aicred_list_providers_on (t : Nat) (reg : Registry) (g : GlobalErr) :
    Option String × GlobalErr :=
  (some (encodeArray ((list_providers reg).map encodeString)), setThread t none g)

/-- Modelled from the spec: `aicred_list_scanners` invoked from thread
`t`; it succeeds and clears that thread's slot. -/
def aicred_list_scanners_on (t : Nat) (reg : Registry) (g : GlobalErr) :
    Option String × GlobalErr :=
  (some (encodeArray ((list_scanners reg).map encodeString)), setThread t none g)

/-- Modelled from the spec: `aicred_last_error` invoked from thread `t`
reads that thread's slot. -/
def aicred_last_error_on (t : Nat) (g : GlobalErr) : Option String :=
  g t

/-! ## The keyfinder_* symbol family

Modelled from the spec: the second exported symbol family is absent from
src/; per the spec it exposes the identical contract under the other name
prefix, so each operation is the very same function. -/

/-- Modelled from the spec: `keyfinder_scan`, the second name of the scan
boundary. -/
def keyfinder_scan : Registry → FS → Option String → Option OptionsJson →
    ThreadState → Option String × ThreadState :=
  aicred_scan

/-- Modelled from the spec: `keyfinder_free`, the second name of the free
operation. -/
def keyfinder_free : Option String → Unit :=
  aicred_free

/-- Modelled from the spec: `keyfinder_version`, the second name of the
version string. -/
def keyfinder_version : String :=
  aicred_version

/-- Modelled from the spec: `keyfinder_last_error`, the second name of the
error read. -/
def keyfinder_last_error : ThreadState → Option String :=
  aicred_last_error

/-- Modelled from the spec: `keyfinder_list_providers`, the second name of
the provider enumeration. -/
def keyfinder_list_providers : Registry → ThreadState → Option String × ThreadState :=
  aicred_list_providers

/-- Modelled from the spec: `keyfinder_list_scanners`, the second name of
the scanner enumeration. -/
def keyfinder_list_scanners : Registry → ThreadState → Option String × ThreadState :=
  aicred_list_scanners

/-! ## A concrete demonstration registry and filesystem -/

/-- A registry is well formed when every detector only emits findings
attributed to its own provider name. -/
def Registry.Wf (reg : Registry) : Prop :=
  ∀ e ∈ reg.providers, ∀ path content r, r ∈ e.detector path content →
    r.provider = e.name

/-- A small concrete detector for the openai provider. -/
def demoDetector : Detector := fun _ _ =>
  [⟨"openai", "OPENAI_API_KEY", "sk-abcdefgh", .certain⟩]

/-- A small concrete registry with one provider and one scanner. -/
def demoRegistry : Registry :=
  ⟨[⟨"openai", demoDetector⟩], [⟨"ragit", ["cfg"], "openai"⟩]⟩

/-- A small concrete filesystem snapshot whose home directory exists and
holds one readable candidate file. -/
def demoFS : FS :=
  ⟨"/h", ["/h"], [("/h/cfg", .readable "k")]⟩

theorem demoRegistry_wf : Registry.Wf demoRegistry := by
  intro e he path content r hr
  simp only [demoRegistry, List.mem_singleton] at he
  subst he
  simp only [demoDetector, List.mem_singleton] at hr
  subst hr
  rfl

/-! ## Claim theorems -/

/-- C5: the redact function is idempotent — for every string value,
redacting an already-redacted value changes nothing further. -/
theorem redact_idempotent (value : String) : redact (redact value) = redact value := by
  unfold redact
  exact congrArg String.mk (redactList_idem value.data)

/-- C9: the keyfinder_* symbol family exposes, operation by operation
(scan, free, version, last_error, list_providers, list_scanners), a
contract identical to its aicred_* counterpart: one logical interface under
two name prefixes. -/
theorem keyfinder_matches_aicred :
    keyfinder_scan = aicred_scan ∧
    keyfinder_free = aicred_free ∧
    keyfinder_version = aicred_version ∧
    keyfinder_last_error = aicred_last_error ∧
    keyfinder_list_providers = aicred_list_providers ∧
    keyfinder_list_scanners = aicred_list_scanners :=
  ⟨rfl, rfl, rfl, rfl, rfl, rfl⟩

/-- C3: for a fixed filesystem snapshot and fixed options input, two
invocations of the scan boundary produce identical JSON output, and the
findings are ordered by scanner enumeration order and then by
candidate-path enumeration order within each scanner. -/
theorem scan_deterministic_and_ordered (reg : Registry) (fs : FS)
    (home : Option String) (oj : Option OptionsJson) (st₁ st₂ : ThreadState) :
    (aicred_scan reg fs home oj st₁).1 = (aicred_scan reg fs home oj st₂).1 ∧
    ∀ (opts : ScanOptions) (h : String),
      (runScan reg fs opts h).findings =
        (effectiveScanners reg opts).flatMap (scannerFindings reg fs opts h) := by
  refine ⟨rfl, ?_⟩
  intro opts h
  rw [runScan_eq]

/-- C10: the scan boundary has defined behaviour for every combination of
null (absent) pointer arguments: any call, including one with null
home_path and/or null options_json, yields either a result string with the
error slot cleared, or the null sentinel with a nonempty last_error
message. -/
theorem scan_null_args_defined (reg : Registry) (fs : FS) (st : ThreadState)
    (home : Option String) (oj : Option OptionsJson) :
    (∃ s, aicred_scan reg fs home oj st = (some s, ⟨none⟩)) ∨
    (∃ m, aicred_scan reg fs home oj st = (none, ⟨some m⟩) ∧ m ≠ "") := by
  unfold aicred_scan
  rcases hc : scanCore reg fs home oj with m | s
  · exact Or.inr ⟨m, rfl, scanCore_error_nonempty reg fs home oj m hc⟩
  · exact Or.inl ⟨s, rfl⟩

/-- C1: every failing invocation of scan returns the null sentinel rather
than raising and stores a descriptive (nonempty) message in the
thread-local last_error slot; in particular a nonexistent home path is a
fatal precondition failure that returns null and is never collected as a
per-file diagnostic in a result. -/
theorem scan_failure_contract (reg : Registry) (fs : FS) (home : Option String)
    (oj : Option OptionsJson) (st : ThreadState) :
    (∀ m, scanCore reg fs home oj = .error m →
        aicred_scan reg fs home oj st = (none, ⟨some m⟩) ∧ m ≠ "") ∧
    (∀ opts, decodeOptions oj = .ok opts →
        fs.dirs.contains (resolveHome fs home) = false →
        aicred_scan reg fs home oj st =
          (none, ⟨some (homeMissingMsg (resolveHome fs home))⟩)) := by
  constructor
  · intro m hm
    refine ⟨?_, scanCore_error_nonempty reg fs home oj m hm⟩
    unfold aicred_scan
    rw [hm]
  · intro opts hopts hhome
    have hc : scanCore reg fs home oj = .error (homeMissingMsg (resolveHome fs home)) := by
      unfold scanCore
      rw [hopts]
      simp only [Except.bind, Bind.bind]
      rw [hhome]
      simp
    unfold aicred_scan
    rw [hc]

/-- Witness for C1: a malformed options input makes scan return null with
the stored message, and a missing home directory does the same. -/
theorem scan_failure_contract_witness :
    (aicred_scan demoRegistry demoFS (some "/h") (some (.malformed "x")) ⟨none⟩ =
        (none, ⟨some "invalid options: malformed JSON"⟩) ∧
      "invalid options: malformed JSON" ≠ "") ∧
    aicred_scan demoRegistry demoFS (some "/nope") none ⟨none⟩ =
      (none, ⟨some (homeMissingMsg (resolveHome demoFS (some "/nope")))⟩) :=
  ⟨(scan_failure_contract demoRegistry demoFS (some "/h") (some (.malformed "x")) ⟨none⟩).1
      "invalid options: malformed JSON" rfl,
   (scan_failure_contract demoRegistry demoFS (some "/nope") none ⟨none⟩).2
      ⟨false, defaultMaxFileSize, [], []⟩ rfl (by decide)⟩

/-- The options inputs the spec calls invalid: malformed JSON, or a
max_file_size at most zero. -/
def InvalidOptionsInput (oj : Option OptionsJson) : Prop :=
  (∃ raw, oj = some (.malformed raw)) ∨
  (∃ f v, oj = some (.obj f) ∧ f.max_file_size = some v ∧ v ≤ 0)

/-- C6: on malformed options JSON or a max_file_size of at most zero, scan
fails fast before any file is scanned — it returns null with a nonempty
last_error message referencing invalid options, and the outcome is
independent of the filesystem. -/
theorem invalid_options_fail_fast (reg : Registry) (fs fs2 : FS)
    (home : Option String) (oj : Option OptionsJson) (st : ThreadState)
    (h : InvalidOptionsInput oj) :
    ∃ m, aicred_scan reg fs home oj st = (none, ⟨some m⟩) ∧
      (∃ rest, m = "invalid options: " ++ rest) ∧ m ≠ "" ∧
      aicred_scan reg fs home oj st = aicred_scan reg fs2 home oj st := by
  have hdec : ∃ m, decodeOptions oj = .error m ∧
      ∃ rest, m = "invalid options: " ++ rest := by
    rcases h with ⟨raw, rfl⟩ | ⟨f, v, rfl, hmf, hv⟩
    · exact ⟨"invalid options: malformed JSON", rfl, "malformed JSON", by decide⟩
    · refine ⟨"invalid options: max_file_size out of range", ?_,
        "max_file_size out of range", by decide⟩
      simp only [decodeOptions, hmf, Option.getD_some]
      rw [if_pos hv]
  obtain ⟨m, hm, rest, hrest⟩ := hdec
  have hcore : ∀ fs0 : FS, scanCore reg fs0 home oj = .error m := by
    intro fs0
    unfold scanCore
    rw [hm]
    rfl
  refine ⟨m, ?_, ⟨rest, hrest⟩, scanCore_error_nonempty reg fs home oj m (hcore fs), ?_⟩
  · unfold aicred_scan
    rw [hcore fs]
  · unfold aicred_scan
    rw [hcore fs, hcore fs2]

/-- Witness for C6: a max_file_size of zero is rejected identically on two
different filesystems. -/
theorem invalid_options_fail_fast_witness :
    InvalidOptionsInput (some (.obj ⟨none, some 0, none, none⟩)) ∧
    ∃ m, aicred_scan demoRegistry demoFS (some "/h")
          (some (.obj ⟨none, some 0, none, none⟩)) ⟨none⟩ = (none, ⟨some m⟩) ∧
        (∃ rest, m = "invalid options: " ++ rest) ∧ m ≠ "" ∧
        aicred_scan demoRegistry demoFS (some "/h")
            (some (.obj ⟨none, some 0, none, none⟩)) ⟨none⟩ =
          aicred_scan demoRegistry ⟨"/x", [], []⟩ (some "/h")
            (some (.obj ⟨none, some 0, none, none⟩)) ⟨none⟩ :=
  ⟨Or.inr ⟨⟨none, some 0, none, none⟩, 0, rfl, rfl, by decide⟩,
   invalid_options_fail_fast demoRegistry demoFS ⟨"/x", [], []⟩ (some "/h")
     (some (.obj ⟨none, some 0, none, none⟩)) ⟨none⟩
     (Or.inr ⟨⟨none, some 0, none, none⟩, 0, rfl, rfl, by decide⟩)⟩

/-- C2: for every valid options value in which the same provider name
appears in both only_providers and exclude_providers, the scan result
contains zero findings attributed to that provider — the deny-list entry
overrides the allow-list match. -/
theorem deny_overrides_allow (reg : Registry) (fs : FS) (opts : ScanOptions)
    (home p : String) (hwf : Registry.Wf reg)
    (honly : p ∈ opts.only_providers) (hexc : p ∈ opts.exclude_providers) :
    ∀ f ∈ (runScan reg fs opts home).findings, f.provider ≠ p := by
  intro f hf
  obtain ⟨sc, hsc, d, hd, q, hq, c, hc, r, hr, hfe⟩ :=
    findings_inversion reg fs opts home f hf
  obtain ⟨e, he, hname, hdet⟩ := resolve_detector_some reg _ d hd
  have hall : providerAllowed opts sc.detector_provider = true :=
    (List.mem_filter.mp hsc).2
  have hnotex : sc.detector_provider ∉ opts.exclude_providers := by
    unfold providerAllowed at hall
    simp only [Bool.and_eq_true, Bool.not_eq_true'] at hall
    simpa using hall.2
  have hprov : r.provider = sc.detector_provider := by
    rw [← hname]
    exact hwf e he q c r (by rw [hdet]; exact hr)
  have hfp : f.provider = r.provider := by rw [hfe]; rfl
  rw [hfp, hprov]
  intro hEq
  exact hnotex (hEq ▸ hexc)

/-- Witness for C2: with the demonstration registry, putting "openai" in
both lists yields no finding attributed to it. -/
theorem deny_overrides_allow_witness :
    (Registry.Wf demoRegistry ∧ "openai" ∈ ["openai"]) ∧
    ∀ f ∈ (runScan demoRegistry demoFS ⟨false, 100, ["openai"], ["openai"]⟩ "/h").findings,
      f.provider ≠ "openai" :=
  ⟨⟨demoRegistry_wf, by decide⟩,
   deny_overrides_allow demoRegistry demoFS ⟨false, 100, ["openai"], ["openai"]⟩ "/h"
     "openai" demoRegistry_wf (by decide) (by decide)⟩

/-- C4: a file whose size exceeds max_file_size yields the TooLarge skip
outcome rather than a fatal error: it contributes no finding and no error
entry, it is not counted by scanned_file_count, and the whole scan result
is the same as if the file were absent. -/
theorem too_large_file_skipped (reg : Registry) (fs : FS) (opts : ScanOptions)
    (home p c : String)
    (hc : fs.lookup p = some (.readable c))
    (hbig : (c.length : Int) > opts.max_file_size) :
    read_bounded fs opts.max_file_size p = .skippedTooLarge ∧
    (∀ f ∈ (runScan reg fs opts home).findings, f.file_path ≠ p) ∧
    (∀ e ∈ (runScan reg fs opts home).errors, e.1 ≠ p) ∧
    runScan reg fs opts home = runScan reg (fs.erase p) opts home := by
  have hrb : read_bounded fs opts.max_file_size p = .skippedTooLarge := by
    unfold read_bounded
    rw [hc]
    simp only [if_pos hbig]
  refine ⟨hrb, ?_, ?_, ?_⟩
  · intro f hf
    obtain ⟨sc, hsc, d, hd, q, hq, cc, hq2, r, hr, hfe⟩ :=
      findings_inversion reg fs opts home f hf
    have hfp : f.file_path = q := by rw [hfe]; rfl
    rw [hfp]
    intro hqp
    subst hqp
    rw [hrb] at hq2
    exact ReadOutcome.noConfusion hq2
  · intro e he
    obtain ⟨sc, hsc, q, hq, m, hm, he2⟩ := errors_inversion reg fs opts home e he
    have hep : e.1 = q := by rw [he2]
    rw [hep]
    intro hqp
    subst hqp
    rw [hrb] at hm
    exact ReadOutcome.noConfusion hm
  · have hFF : ∀ n d, fileFindings (fs.erase p) opts n d = fileFindings fs opts n d := by
      intro n d
      funext q
      unfold fileFindings
      rw [read_bounded_erase]
      by_cases hqp : q = p
      · rw [if_pos hqp, hqp, hrb]
      · rw [if_neg hqp]
    have hFE : fileErrors (fs.erase p) opts = fileErrors fs opts := by
      funext q
      unfold fileErrors
      rw [read_bounded_erase]
      by_cases hqp : q = p
      · rw [if_pos hqp, hqp, hrb]
      · rw [if_neg hqp]
    have hFC : fileCount (fs.erase p) opts = fileCount fs opts := by
      funext q
      unfold fileCount
      rw [read_bounded_erase]
      by_cases hqp : q = p
      · rw [if_pos hqp, hqp, hrb]
      · rw [if_neg hqp]
    have hSF : scannerFindings reg (fs.erase p) opts home = scannerFindings reg fs opts home := by
      funext sc
      unfold scannerFindings
      cases resolve_detector reg sc.detector_provider with
      | none => rfl
      | some d => exact congrArg (fun f => (candidate_paths sc home).flatMap f) (hFF sc.name d)
    have hSE : scannerErrors reg (fs.erase p) opts home = scannerErrors reg fs opts home := by
      funext sc
      unfold scannerErrors
      cases resolve_detector reg sc.detector_provider with
      | none => rfl
      | some d => exact congrArg (fun f => (candidate_paths sc home).flatMap f) hFE
    have hSC : scannerCount reg (fs.erase p) opts home = scannerCount reg fs opts home := by
      funext sc
      unfold scannerCount
      cases resolve_detector reg sc.detector_provider with
      | none => rfl
      | some d => exact congrArg (fun f => ((candidate_paths sc home).map f).sum) hFC
    rw [runScan_eq, runScan_eq, hSF, hSE, hSC]

/-- Witness for C4: a 3-byte file against a 1-byte bound is skipped, scores
nowhere, and erasing it leaves the result unchanged. -/
theorem too_large_file_skipped_witness :
    (FS.lookup ⟨"/h", ["/h"], [("/h/cfg", .readable "abc")]⟩ "/h/cfg" =
        some (.readable "abc") ∧
      ((("abc" : String).length : Int) > (1 : Int))) ∧
    (read_bounded ⟨"/h", ["/h"], [("/h/cfg", .readable "abc")]⟩ (1 : Int) "/h/cfg" =
        .skippedTooLarge ∧
      (∀ f ∈ (runScan demoRegistry ⟨"/h", ["/h"], [("/h/cfg", .readable "abc")]⟩
          ⟨false, 1, [], []⟩ "/h").findings, f.file_path ≠ "/h/cfg") ∧
      (∀ e ∈ (runScan demoRegistry ⟨"/h", ["/h"], [("/h/cfg", .readable "abc")]⟩
          ⟨false, 1, [], []⟩ "/h").errors, e.1 ≠ "/h/cfg") ∧
      runScan demoRegistry ⟨"/h", ["/h"], [("/h/cfg", .readable "abc")]⟩
          ⟨false, 1, [], []⟩ "/h" =
        runScan demoRegistry (FS.erase ⟨"/h", ["/h"], [("/h/cfg", .readable "abc")]⟩ "/h/cfg")
          ⟨false, 1, [], []⟩ "/h") :=
  ⟨⟨rfl, by decide⟩,
   too_large_file_skipped demoRegistry ⟨"/h", ["/h"], [("/h/cfg", .readable "abc")]⟩
     ⟨false, 1, [], []⟩ "/h" "/h/cfg" "abc" rfl (by decide)⟩

/-- C7: when a scanner's candidate file exists but cannot be read, the
scan still returns a valid JSON result (not null): the failing path is
recorded in the errors sequence, appears in no finding, and the rest of
the scan is unaffected. -/
theorem unreadable_file_nonfatal (reg : Registry) (fs : FS) (home : Option String)
    (oj : Option OptionsJson) (st : ThreadState) (opts : ScanOptions)
    (sc : ScannerEntry) (d : Detector) (p : String)
    (hopts : decodeOptions oj = .ok opts)
    (hhome : fs.dirs.contains (resolveHome fs home) = true)
    (hp : fs.lookup p = some .unreadable)
    (hsc : sc ∈ reg.scanners)
    (hall : providerAllowed opts sc.detector_provider = true)
    (hd : resolve_detector reg sc.detector_provider = some d)
    (hcand : p ∈ candidate_paths sc (resolveHome fs home)) :
    (aicred_scan reg fs home oj st).1 =
      some (encodeResult (runScan reg fs opts (resolveHome fs home))) ∧
    (p, "permission denied") ∈ (runScan reg fs opts (resolveHome fs home)).errors ∧
    (∀ f ∈ (runScan reg fs opts (resolveHome fs home)).findings, f.file_path ≠ p) := by
  have hrb : read_bounded fs opts.max_file_size p = .readErr "permission denied" := by
    unfold read_bounded
    rw [hp]
  refine ⟨?_, ?_, ?_⟩
  · have hcore : scanCore reg fs home oj =
        .ok (encodeResult (runScan reg fs opts (resolveHome fs home))) := by
      unfold scanCore
      rw [hopts]
      simp only [Except.bind, Bind.bind]
      rw [hhome]
      simp
    unfold aicred_scan
    rw [hcore]
  · rw [runScan_eq]
    simp only [List.mem_flatMap]
    refine ⟨sc, List.mem_filter.mpr ⟨hsc, hall⟩, ?_⟩
    unfold scannerErrors
    rw [hd]
    simp only [List.mem_flatMap]
    refine ⟨p, hcand, ?_⟩
    unfold fileErrors
    rw [hrb]
    simp
  · intro f hf
    obtain ⟨sc2, hsc2, d2, hd2, q, hq, c, hcq, r, hr, hfe⟩ :=
      findings_inversion reg fs opts (resolveHome fs home) f hf
    have hfp : f.file_path = q := by rw [hfe]; rfl
    rw [hfp]
    intro hqp
    subst hqp
    rw [hrb] at hcq
    exact ReadOutcome.noConfusion hcq

/-- A filesystem snapshot whose only candidate file is unreadable, used to
exercise the permission-denied path. -/
def demoFSUnread : FS :=
  ⟨"/h", ["/h"], [("/h/cfg", .unreadable)]⟩

/-- Witness for C7: with a null options pointer and an unreadable candidate
file, scan still returns a JSON result, the path lands in errors and in no
finding. -/
theorem unreadable_file_nonfatal_witness :
    (FS.lookup demoFSUnread "/h/cfg" = some .unreadable) ∧
    (aicred_scan demoRegistry demoFSUnread (some "/h") none ⟨none⟩).1 =
      some (encodeResult (runScan demoRegistry demoFSUnread
        ⟨false, defaultMaxFileSize, [], []⟩ (resolveHome demoFSUnread (some "/h")))) ∧
    ("/h/cfg", "permission denied") ∈ (runScan demoRegistry demoFSUnread
        ⟨false, defaultMaxFileSize, [], []⟩ (resolveHome demoFSUnread (some "/h"))).errors ∧
    (∀ f ∈ (runScan demoRegistry demoFSUnread
        ⟨false, defaultMaxFileSize, [], []⟩ (resolveHome demoFSUnread (some "/h"))).findings,
      f.file_path ≠ "/h/cfg") :=
  ⟨rfl,
   unreadable_file_nonfatal demoRegistry demoFSUnread (some "/h") none ⟨none⟩
     ⟨false, defaultMaxFileSize, [], []⟩ ⟨"ragit", ["cfg"], "openai"⟩ demoDetector "/h/cfg"
     rfl (by decide) rfl (by decide) (by decide) rfl (by decide)⟩

/-- C8: every boundary call overwrites the calling thread's last_error
slot — a failing scan stores a nonempty message, a successful scan (and the
list operations) clears the slot so last_error returns null — and a call on
one thread never touches another thread's slot; writes from distinct
threads commute. -/
theorem last_error_thread_contract (reg : Registry) (fs : FS) (home : Option String)
    (oj : Option OptionsJson) (g : GlobalErr) (t u : Nat) (hne : u ≠ t) :
    (∀ s, (aicred_scan_on t reg fs home oj g).1 = some s →
        aicred_last_error_on t (aicred_scan_on t reg fs home oj g).2 = none) ∧
    ((aicred_scan_on t reg fs home oj g).1 = none →
        ∃ m, aicred_last_error_on t (aicred_scan_on t reg fs home oj g).2 = some m ∧
          m ≠ "") ∧
    (aicred_scan_on t reg fs home oj g).2 u = g u ∧
    aicred_last_error_on t (aicred_list_providers_on t reg g).2 = none ∧
    aicred_last_error_on t (aicred_list_scanners_on t reg g).2 = none ∧
    (aicred_list_providers_on t reg g).2 u = g u ∧
    (aicred_list_scanners_on t reg g).2 u = g u ∧
    (∀ v w, setThread u v (setThread t w g) = setThread t w (setThread u v g)) := by
  have hset : ∀ v, setThread t v g t = v := by
    intro v
    simp [setThread]
  have hother : ∀ v, setThread t v g u = g u := by
    intro v
    simp [setThread, hne]
  refine ⟨?_, ?_, ?_, ?_, ?_, ?_, ?_, ?_⟩
  · intro s hs
    unfold aicred_scan_on at hs ⊢
    rcases hc : scanCore reg fs home oj with m | s2
    · rw [hc] at hs; simp at hs
    · exact hset none
  · intro hnone
    unfold aicred_scan_on at hnone ⊢
    rcases hc : scanCore reg fs home oj with m | s2
    · exact ⟨m, hset (some m), scanCore_error_nonempty reg fs home oj m hc⟩
    · rw [hc] at hnone; simp at hnone
  · unfold aicred_scan_on
    rcases hc : scanCore reg fs home oj with m | s2
    · exact hother (some m)
    · exact hother none
  · exact hset none
  · exact hset none
  · exact hother none
  · exact hother none
  · intro v w
    funext x
    unfold setThread
    by_cases hxu : x = u
    · rw [if_pos hxu, if_neg (hxu ▸ hne), if_pos hxu]
    · by_cases hxt : x = t
      · rw [if_neg hxu, if_pos hxt, if_pos hxt]
      · rw [if_neg hxu, if_neg hxt, if_neg hxt, if_neg hxu]

/-- Witness for C8: on a two-thread state, a failing scan on thread 0
stores its message there, leaves thread 1 alone, and the list operations
clear the slot. -/
theorem last_error_thread_contract_witness :
    ((1 : Nat) ≠ 0) ∧
    ((∀ s, (aicred_scan_on 0 demoRegistry demoFS (some "/h")
          (some (.malformed "x")) (fun _ => none)).1 = some s →
        aicred_last_error_on 0 (aicred_scan_on 0 demoRegistry demoFS (some "/h")
          (some (.malformed "x")) (fun _ => none)).2 = none) ∧
      ((aicred_scan_on 0 demoRegistry demoFS (some "/h")
          (some (.malformed "x")) (fun _ => none)).1 = none →
        ∃ m, aicred_last_error_on 0 (aicred_scan_on 0 demoRegistry demoFS (some "/h")
          (some (.malformed "x")) (fun _ => none)).2 = some m ∧ m ≠ "") ∧
      (aicred_scan_on 0 demoRegistry demoFS (some "/h")
          (some (.malformed "x")) (fun _ => none)).2 1 = (fun _ : Nat => none) 1 ∧
      aicred_last_error_on 0 (aicred_list_providers_on 0 demoRegistry (fun _ => none)).2 = none ∧
      aicred_last_error_on 0 (aicred_list_scanners_on 0 demoRegistry (fun _ => none)).2 = none ∧
      (aicred_list_providers_on 0 demoRegistry (fun _ => none)).2 1 = (fun _ : Nat => none) 1 ∧
      (aicred_list_scanners_on 0 demoRegistry (fun _ => none)).2 1 = (fun _ : Nat => none) 1 ∧
      (∀ v w, setThread 1 v (setThread 0 w (fun _ => none)) =
        setThread 0 w (setThread 1 v (fun _ => none)))) :=
  ⟨by decide,
   last_error_thread_contract demoRegistry demoFS (some "/h") (some (.malformed "x"))
     (fun _ => none) 0 1 (by decide)⟩

end Aicred
